import Mathlib

/-!
Verification of the cache abstraction and cache-aside coordination layer of
the `taheri24/graph-interview` task API.

The Go source is shallowly embedded:

* `internal/cache/memory.go` ships two snapshots of the in-memory backend:
  a pointer-returning one (`Get(id) (*T, error)`, miss = `(nil, nil)`) and a
  collection-capable one (`Get(id) (T, error)` with `GetAll/SetAll/
  InvalidateAll`, miss = error `"item not found in cache"`).  The backing
  `map[string]any` is modelled as an association list whose values carry a
  dynamic-type tag (`DynVal`), so the runtime type assertion of the Go code
  is represented faithfully.
* the Redis layer (`RedisCache` in the unnamed cache files) is modelled with
  an association list of raw byte payloads; JSON (de)serialization is an
  external library and enters as an explicit `decode` function parameter.
* the HTTP handlers (`internal/handlers/task.go`, `task_cached.go`) are
  modelled as pure functions from the results of their collaborator calls
  (cache result, repository result) to a response value together with
  counters of the repository fetches and cache writes they perform.
-/

set_option autoImplicit false

namespace GraphCache

/-- Entity stored by the repository and the caches; the fields that the
handlers read (`internal/models/task.go`, fields used by filtering and the
responses). Timestamps are irrelevant to every claim and are omitted. -/
structure Task where
  id : String
  title : String
  description : String
  status : String
  assignee : String
deriving Repr, DecidableEq

/-- A value stored in the `map[string]any` backing store of
`InMemoryCacheImpl`: either a value of the instantiated type parameter `T`
(`typed`) or a value of some other dynamic type (`foreign`), for which the
Go type assertion `item.(T)` fails. -/
inductive DynVal (V : Type) where
  | typed (v : V)
  | foreign
deriving Repr, DecidableEq

/-- The backing store `map[string]any`, as an association list with
first-match lookup. -/
abbrev Store (V : Type) := List (String × DynVal V)

/-- Map lookup `m.store[id]`. -/
def lookupStore {V : Type} : Store V → String → Option (DynVal V)
  | [], _ => none
  | (k', v) :: rest, k => if k' = k then some v else lookupStore rest k

/-- Map assignment `m.store[id] = item`: replace the binding when the key is
present, append it otherwise. -/
def storeInsert {V : Type} : Store V → String → DynVal V → Store V
  | [], k, v => [(k, v)]
  | (k', v') :: rest, k, v =>
      if k' = k then (k, v) :: rest else (k', v') :: storeInsert rest k v

/-- Map deletion `delete(m.store, id)`. -/
def storeErase {V : Type} : Store V → String → Store V
  | [], _ => []
  | (k', v') :: rest, k =>
      if k' = k then storeErase rest k else (k', v') :: storeErase rest k

/-- `InMemoryCacheImpl.Get` (pointer snapshot, memory.go:24-37):
present and well-typed -> `(&item, nil)`; present but ill-typed ->
`(nil, "type assertion failed...")`; absent -> `(nil, nil)`.  The result
pair is `(value pointer, error)`. -/
def memGet {V : Type} (σ : Store V) (k : String) : Option V × Option String :=
  match lookupStore σ k with
  | some (DynVal.typed v) => (some v, none)
  | some DynVal.foreign => (none, some "type assertion failed for cached item")
  | none => (none, none)

/-- `InMemoryCacheImpl.Set` (memory.go:40-46): `m.store[id] = item` and
return nil error. -/
def memSet {V : Type} (σ : Store V) (k : String) (v : V) : Store V :=
  storeInsert σ k (DynVal.typed v)

/-- `InMemoryCacheImpl.Invalidate` (memory.go:49-55): `delete(m.store, id)`
and return nil error. -/
def memInvalidate {V : Type} (σ : Store V) (k : String) : Store V :=
  storeErase σ k

/-- `InMemoryCacheImpl.Get` (collection-capable snapshot, memory.go:118-133):
present and well-typed -> `(item, nil)`; present but ill-typed ->
`(zero, "type assertion failed...")`; absent ->
`(zero, "item not found in cache")`. -/
def memGetV {V : Type} (σ : Store V) (k : String) : Except String V :=
  match lookupStore σ k with
  | some (DynVal.typed v) => Except.ok v
  | some DynVal.foreign => Except.error "type assertion failed for cached item"
  | none => Except.error "item not found in cache"

/-- `InMemoryCacheImpl.GetAll` (memory.go:79-90): every value in the map
that type-asserts to `T`, in store order. -/
def memGetAllV {V : Type} (σ : Store V) : List V :=
  σ.filterMap fun p =>
    match p.2 with
    | DynVal.typed v => some v
    | DynVal.foreign => none

/-- The synthetic index key `fmt.Sprintf("item_%d", i)` used by `SetAll`. -/
def itemKey (i : Nat) : String := "item_" ++ toString i

/-- The loop body of `SetAll`: store `items[j]` under `itemKey (n + j)`. -/
def setAllAux {V : Type} : Nat → List V → Store V
  | _, [] => []
  | n, v :: rest => (itemKey n, DynVal.typed v) :: setAllAux (n + 1) rest

/-- `InMemoryCacheImpl.SetAll` (memory.go:93-106): discard the whole backing
map (`m.store = make(map[string]any)`) and re-store the items under
index-based keys `item_0 .. item_{n-1}`. -/
def memSetAllV {V : Type} (_σ : Store V) (items : List V) : Store V :=
  setAllAux 0 items

/-- `InMemoryCacheImpl.InvalidateAll` (memory.go:109-115): fresh empty map. -/
def memInvalidateAllV {V : Type} (_σ : Store V) : Store V := []

/- ### Store lemmas -/

theorem lookupStore_erase {V : Type} (σ : Store V) (k : String) :
    lookupStore (storeErase σ k) k = none := by
  induction σ with
  | nil => rfl
  | cons p rest ih =>
      by_cases h : p.1 = k
      · simpa [storeErase, h] using ih
      · simpa [storeErase, lookupStore, h] using ih

theorem lookupStore_insert_self {V : Type} (σ : Store V) (k : String)
    (d : DynVal V) : lookupStore (storeInsert σ k d) k = some d := by
  induction σ with
  | nil => simp [storeInsert, lookupStore]
  | cons p rest ih =>
      by_cases h : p.1 = k
      · simp [storeInsert, h, lookupStore]
      · simpa [storeInsert, lookupStore, h] using ih

theorem storeInsert_of_not_mem {V : Type} (σ : Store V) (k : String)
    (d : DynVal V) (h : ∀ p ∈ σ, p.1 ≠ k) :
    storeInsert σ k d = σ ++ [(k, d)] := by
  induction σ with
  | nil => rfl
  | cons p rest ih =>
      have hp : p.1 ≠ k := h p (List.mem_cons_self p rest)
      have hrest : ∀ q ∈ rest, q.1 ≠ k := fun q hq => h q (List.mem_cons_of_mem p hq)
      simp [storeInsert, hp, ih hrest]

theorem lookupStore_setAllAux_of_ne {V : Type} (items : List V) (n : Nat)
    (k : String) (h : ∀ j, j < items.length → k ≠ itemKey (n + j)) :
    lookupStore (setAllAux n items) k = none := by
  induction items generalizing n with
  | nil => rfl
  | cons v rest ih =>
      have h0 : k ≠ itemKey n := by
        have := h 0 (by simp)
        simpa using this
      have hrest : ∀ j, j < rest.length → k ≠ itemKey (n + 1 + j) := by
        intro j hj
        have := h (j + 1) (by simpa using Nat.succ_lt_succ hj)
        simpa [Nat.add_assoc, Nat.add_comm 1 j] using this
      simp [setAllAux, lookupStore, Ne.symm h0, ih (n + 1) hrest]

theorem keys_setAllAux {V : Type} (items : List V) (n : Nat) :
    ∀ p ∈ setAllAux n items, ∃ j, j < items.length ∧ p.1 = itemKey (n + j) := by
  induction items generalizing n with
  | nil => intro p hp; cases hp
  | cons v rest ih =>
      intro p hp
      rcases List.mem_cons.mp hp with hp | hp
      · exact ⟨0, by simp, by simp [hp]⟩
      · rcases ih (n + 1) p hp with ⟨j, hj, hk⟩
        exact ⟨j + 1, by simpa using Nat.succ_lt_succ hj,
          by simpa [Nat.add_assoc, Nat.add_comm 1 j] using hk⟩

theorem memGetAllV_setAllAux {V : Type} (items : List V) (n : Nat) :
    memGetAllV (setAllAux n items) = items := by
  induction items generalizing n with
  | nil => rfl
  | cons v rest ih => simp [setAllAux, memGetAllV] at ih ⊢; exact ih (n + 1)

theorem memGetAllV_append {V : Type} (σ₁ σ₂ : Store V) :
    memGetAllV (σ₁ ++ σ₂) = memGetAllV σ₁ ++ memGetAllV σ₂ := by
  simp [memGetAllV]

/- ### Claims about the in-memory backend -/

/-- **C8** (confirmed). Round-trip on the in-memory backend: for every key
`k`, value `v` and prior store state, `Set(k, v)` followed by `Get(k)`
returns a non-nil pointer to a value equal to `v` with a nil error. -/
theorem c8_mem_roundtrip {V : Type} (σ : Store V) (k : String) (v : V) :
    memGet (memSet σ k v) k = (some v, none) := by
  simp [memGet, memSet, lookupStore_insert_self]

/-- **C7** (confirmed). Invalidate-then-miss on the in-memory backend: for
every key `k`, value `v` and prior store state, after `Set(k, v)` followed
by `Invalidate(k)`, a `Get(k)` performed before any new `Set(k, ...)`
returns `(nil, nil)`. -/
theorem c7_mem_invalidate_then_miss {V : Type} (σ : Store V) (k : String)
    (v : V) : memGet (memInvalidate (memSet σ k v) k) k = (none, none) := by
  simp [memGet, memInvalidate, lookupStore_erase]

/-- **C9** (confirmed). On the collection-capable in-memory backend,
`SetAll(items)` replaces the entire backing map regardless of its previous
contents (in particular of entries written by item-level `Set` under entity
ids), re-storing the items under the synthetic keys `item_0 .. item_{n-1}`;
afterwards `Get(id)` for a previously `Set` entity id (an id that is not one
of the synthetic index keys) reports "item not found in cache", and `GetAll`
returns every value in the map that type-asserts to `T`, including a value
written later by item-level `Set`. -/
theorem c9_setall_replaces_store {V : Type} (σ : Store V) (items : List V)
    (k : String) (v w : V)
    (hk : k ∉ (List.range items.length).map itemKey) :
    memSetAllV (memSet σ k v) items = memSetAllV σ items
    ∧ memGetAllV (memSetAllV σ items) = items
    ∧ memGetV (memSetAllV (memSet σ k v) items) k =
        Except.error "item not found in cache"
    ∧ memGetAllV (memSet (memSetAllV σ items) k w) = items ++ [w] := by
  have hk' : ∀ j, j < items.length → k ≠ itemKey j := by
    intro j hj he
    exact hk (List.mem_map.mpr ⟨j, List.mem_range.mpr hj, he.symm⟩)
  refine ⟨rfl, memGetAllV_setAllAux items 0, ?_, ?_⟩
  · have hl : lookupStore (setAllAux 0 items) k = none :=
      lookupStore_setAllAux_of_ne items 0 k (by simpa using hk')
    simp [memGetV, memSetAllV, hl]
  · have hmem : ∀ p ∈ setAllAux 0 items, p.1 ≠ k := by
      intro p hp he
      rcases keys_setAllAux items 0 p hp with ⟨j, hj, hkey⟩
      exact hk' j hj (by simpa [hkey] using he.symm)
    have hins : memSet (memSetAllV σ items) k w =
        setAllAux 0 items ++ [(k, DynVal.typed w)] :=
      storeInsert_of_not_mem _ _ _ hmem
    rw [hins, memGetAllV_append, memGetAllV_setAllAux]
    rfl

/-- Witness for C9 at a concrete store, item list and key. -/
theorem c9_setall_replaces_store_witness :
    memGetV (memSetAllV (memSet ([("a", DynVal.typed 7)] : Store Nat) "a" 7)
        [1, 2]) "a" = Except.error "item not found in cache"
    ∧ memGetAllV (memSet (memSetAllV ([("a", DynVal.typed 7)] : Store Nat)
        [1, 2]) "a" 3) = [1, 2, 3] :=
  ⟨(c9_setall_replaces_store [("a", DynVal.typed 7)] [1, 2] "a" 7 3
      (by decide)).2.2.1,
   (c9_setall_replaces_store [("a", DynVal.typed 7)] [1, 2] "a" 7 3
      (by decide)).2.2.2⟩

/-- **C5** counterexample. On the collection-capable in-memory backend
(memory.go:118-133), `Get` of an absent key does NOT return `(nil, nil)`:
on the empty store it reports the miss as the error
`"item not found in cache"`, refuting "a miss ... is never reported as an
error, for every key and every state of the store". -/
theorem c5_counterexample :
    memGetV ([] : Store Nat) "missing" =
      Except.error "item not found in cache" := rfl

/-- **C5** (corrected). On the pointer-returning in-memory backend, `Get` of
an absent key returns `(nil, nil)` for every key and store state; the
collection-capable snapshot of the same backend instead reports such a miss
as the error `"item not found in cache"`. -/
theorem c5_amended_miss_behaviour {V : Type} (σ : Store V) (k : String)
    (h : lookupStore σ k = none) :
    memGet σ k = (none, none)
    ∧ memGetV σ k = Except.error "item not found in cache" := by
  constructor <;> simp [memGet, memGetV, h]

/-- Witness for the amended C5 on the empty store. -/
theorem c5_amended_miss_behaviour_witness :
    memGet ([] : Store Nat) "x" = (none, none)
    ∧ memGetV ([] : Store Nat) "x" = Except.error "item not found in cache" :=
  c5_amended_miss_behaviour ([] : Store Nat) "x" rfl

/- ### Remote (Redis-backed) cache -/

/-- A raw byte payload held by the remote store. -/
abbrev Bytes := List Nat

/-- Contents of the remote key-value store visible to the client. Transport
failures are outside this model: the store is reachable, and an absent key
is exactly what the backend reports as its distinguished `redis.Nil`. -/
abbrev RStore := List (String × Bytes)

/-- Remote GET at the raw level. -/
def rlookup : RStore → String → Option Bytes
  | [], _ => none
  | (k', b) :: rest, k => if k' = k then some b else rlookup rest k

/-- The error the go-redis client reports for an absent key. -/
inductive RedisErr where
  | redisNil
deriving Repr, DecidableEq

/-- `cmd.Bytes()` of `r.client.Get(ctx, key)`: the payload on success,
`redis.Nil` when the key is absent. -/
def redisGetBytes (σ : RStore) (key : String) : Except RedisErr Bytes :=
  match rlookup σ key with
  | some b => Except.ok b
  | none => Except.error RedisErr.redisNil

/-- Result of running a Go function that may panic. -/
inductive Outcome (V : Type) where
  | ok (v : V)
  | panicked
deriving Repr, DecidableEq

/-- `utils.Must` (pkg/utils, part_008): returns the value on nil error and
panics otherwise. -/
def must {V : Type} : Except String V → Outcome V
  | Except.ok v => Outcome.ok v
  | Except.error _ => Outcome.panicked

/-- `json.Unmarshal` into `T`, abstracted as an explicit decoding function:
`decode raw = some v` when the bytes deserialize to `v`, `none` when they
are malformed for `T`. -/
def jsonUnmarshal {V : Type} (decode : Bytes → Option V) (raw : Bytes) :
    Except String V :=
  match decode raw with
  | some v => Except.ok v
  | none => Except.error "unmarshal error"

/-- `utils.JsonDecode` (part_008): `Must(result, json.Unmarshal(raw, &result))`
— panics whenever the bytes do not deserialize. -/
def jsonDecode {V : Type} (decode : Bytes → Option V) (raw : Bytes) :
    Outcome V :=
  must (jsonUnmarshal decode raw)

/-- Observable result of the generic remote `Get[T]`. -/
inductive GetOutcome (V : Type) where
  | ok (v : V)
  | err (e : RedisErr)
  | panicked
deriving Repr, DecidableEq

/-- Generic `Get[T]` (part_012:56-66): `cmd.Bytes()`, returning `(blank, err)`
on any client error — including `redis.Nil` for an absent key — and
otherwise `utils.JsonDecode[T](raw)`, which panics on malformed bytes. -/
def getGeneric {V : Type} (decode : Bytes → Option V) (σ : RStore)
    (key : String) : GetOutcome V :=
  match redisGetBytes σ key with
  | Except.error e => GetOutcome.err e
  | Except.ok raw =>
      match jsonDecode decode raw with
      | Outcome.ok v => GetOutcome.ok v
      | Outcome.panicked => GetOutcome.panicked

/-- `RedisCacheImpl.Get` (redis cache impl): delegates to the generic
`Get[T]` under the composed key `"<section>:<id>"`. -/
def redisImplGet {V : Type} (decode : Bytes → Option V) (sectionName : String)
    (σ : RStore) (id : String) : GetOutcome V :=
  getGeneric decode σ (sectionName ++ ":" ++ id)

/-- The single-task key `fmt.Sprintf("task:%s", id)` of `RedisCache.GetTask`. -/
def taskKey (id : String) : String := "task:" ++ id

/-- `RedisCache.GetTask` (part_011:86-102): `redis.Nil` is translated to
`(nil, nil)`; a payload that fails to unmarshal is surfaced as
`(nil, "failed to unmarshal cached task")`. -/
def getTaskRemote (decode : Bytes → Option Task) (σ : RStore) (id : String) :
    Option Task × Option String :=
  match rlookup σ (taskKey id) with
  | none => (none, none)
  | some raw =>
      match decode raw with
      | some t => (some t, none)
      | none => (none, some "failed to unmarshal cached task")

/-- A decoder for a one-byte payload, used to exercise the remote layer on
concrete inputs: `[n]` decodes to `n`, everything else is malformed. -/
def decodeNatSingleton : Bytes → Option Nat
  | [n] => some n
  | _ => none

/-- **C4** (code_bug). `RedisCacheImpl.Get` of an absent key does not
translate `redis.Nil` into `(nil, nil)`: the generic `Get[T]` it delegates
to forwards the client error unchanged, so the miss comes back as an error
— contradicting the repository's own test `TestRedisCacheImplGetNonExistent`
(which asserts no error and a nil value) and the sibling task-level
`RedisCache.GetTask`, which does perform the translation (second conjunct). -/
theorem c4_absent_key_eval :
    redisImplGet decodeNatSingleton "tasks" [] "X" =
      GetOutcome.err RedisErr.redisNil
    ∧ getTaskRemote (fun _ => none) [] "X" = (none, none) :=
  ⟨rfl, rfl⟩

/-- **C6** counterexample. The generic remote `Get[T]` panics on a payload
that cannot be deserialized (here the empty payload under key `"tasks:X"`):
the outcome is a panic, not an `(nil, err)` error result. -/
theorem c6_counterexample :
    getGeneric decodeNatSingleton [("tasks:X", [])] "tasks:X" =
      GetOutcome.panicked
    ∧ ¬ ∃ e, getGeneric decodeNatSingleton [("tasks:X", [])] "tasks:X" =
        GetOutcome.err e := by
  refine ⟨rfl, ?_⟩
  rintro ⟨e, he⟩
  have hpanic : getGeneric decodeNatSingleton [("tasks:X", [])] "tasks:X" =
      GetOutcome.panicked := rfl
  rw [hpanic] at he
  cases he

/-- **C6** (corrected). On malformed cached bytes the task-level remote
`GetTask` returns `(nil, err)` with an unmarshal error, but the generic
remote `Get[T]` panics (`JsonDecode` is built on `Must`). -/
theorem c6_amended_malformed_bytes {V : Type} (decode : Bytes → Option V)
    (decodeT : Bytes → Option Task) (σ σT : RStore) (key id : String)
    (raw rawT : Bytes) (hσ : rlookup σ key = some raw)
    (hdec : decode raw = none) (hσT : rlookup σT (taskKey id) = some rawT)
    (hdecT : decodeT rawT = none) :
    getGeneric decode σ key = GetOutcome.panicked
    ∧ getTaskRemote decodeT σT id =
        (none, some "failed to unmarshal cached task") := by
  constructor
  · simp [getGeneric, redisGetBytes, hσ, jsonDecode, jsonUnmarshal, hdec, must]
  · simp [getTaskRemote, hσT, hdecT]

/-- Witness for the amended C6 on concrete stores and payloads. -/
theorem c6_amended_malformed_bytes_witness :
    getGeneric decodeNatSingleton [("k", [])] "k" = GetOutcome.panicked
    ∧ getTaskRemote (fun _ => none) [(taskKey "X", [0, 1])] "X" =
        (none, some "failed to unmarshal cached task") :=
  c6_amended_malformed_bytes decodeNatSingleton (fun _ => none)
    [("k", [])] [(taskKey "X", [0, 1])] "k" "X" [] [0, 1] rfl rfl rfl rfl

/- ### Cache-aside coordinator: the task handlers -/

/-- HTTP statuses produced by the task handlers. -/
inductive HStatus where
  | ok200
  | created201
  | noContent204
  | notFound404
  | serverError500
deriving Repr, DecidableEq

/-- A repository error, distinguished by `utils.ErrIsRecordNotFound`. -/
inductive RepoErr where
  | recordNotFound
  | internalErr
deriving Repr, DecidableEq

/-- Observable result of a single-entity read request: HTTP status, the
returned entity, and how many repository fetches and cache `Set` calls the
handler performed. -/
structure ReadResult (V : Type) where
  status : HStatus
  body : Option V
  repoFetches : Nat
  cacheSets : Nat
deriving Repr, DecidableEq

/-- `TaskHandler.GetTask` (task.go:161-229) after a valid id parse, as a
function of its collaborator results: the cache `Get` result (value
pointer, error), the repository `GetByID` result, and the error of the
best-effort cache `Set` — which the code ignores apart from logging, hence
the unused binder.  A cache hit is exactly `err == nil && taskPtr != nil`;
every other cache result falls through to the repository. -/
def getTaskHandler {V : Type} (cacheRes : Option V × Option String)
    (repoRes : Except RepoErr V) (_setErr : Option String) : ReadResult V :=
  match cacheRes with
  | (some v, none) => ⟨HStatus.ok200, some v, 0, 0⟩
  | _ =>
      match repoRes with
      | Except.error RepoErr.recordNotFound =>
          ⟨HStatus.notFound404, none, 1, 0⟩
      | Except.error RepoErr.internalErr =>
          ⟨HStatus.serverError500, none, 1, 0⟩
      | Except.ok v => ⟨HStatus.ok200, some v, 1, 1⟩

/-- Observable result of a write request: HTTP status, how many repository
mutations were attempted, and how many cache invalidation calls the handler
made. -/
structure WriteResult where
  status : HStatus
  repoMutations : Nat
  cacheInvalidations : Nat
deriving Repr, DecidableEq

/-- `TaskHandler.CreateTask` (task.go:39-81) after a valid JSON bind:
`repo.Create` and respond.  The handler makes no cache call at all, on
success or on failure. -/
def createTaskHandler (createErr : Option String) : WriteResult :=
  match createErr with
  | some _ => ⟨HStatus.serverError500, 1, 0⟩
  | none => ⟨HStatus.created201, 1, 0⟩

/-- `TaskHandler.UpdateTask` (task.go:243-317) after a valid id parse and
JSON bind: `repo.GetByID`, `repo.Update`, then best-effort
`cache.Invalidate` whose error is logged and ignored (unused binder). -/
def updateTaskHandler {V : Type} (getRes : Except RepoErr V)
    (updateErr : Option String) (_invErr : Option String) : WriteResult :=
  match getRes with
  | Except.error RepoErr.recordNotFound => ⟨HStatus.notFound404, 0, 0⟩
  | Except.error RepoErr.internalErr => ⟨HStatus.serverError500, 0, 0⟩
  | Except.ok _ =>
      match updateErr with
      | some _ => ⟨HStatus.serverError500, 1, 0⟩
      | none => ⟨HStatus.ok200, 1, 1⟩

/-- `TaskHandler.DeleteTask` (task.go:333-363) after a valid id parse:
`repo.Delete`, then best-effort `cache.Invalidate` (error ignored). -/
def deleteTaskHandler (delErr : Option RepoErr) (_invErr : Option String) :
    WriteResult :=
  match delErr with
  | some RepoErr.recordNotFound => ⟨HStatus.notFound404, 1, 0⟩
  | some RepoErr.internalErr => ⟨HStatus.serverError500, 1, 0⟩
  | none => ⟨HStatus.noContent204, 1, 1⟩

/-- **C1** (confirmed). The cache-aside read path of `TaskHandler.GetTask`:
a hit (non-nil pointer, nil error) is answered from the cache with no
repository fetch and no cache write; any non-hit cache result — a plain
miss `(nil, nil)`, a cache error, even a value accompanied by an error —
triggers exactly one repository fetch; when that fetch succeeds the handler
performs one best-effort cache `Set` and returns the freshly fetched value;
and the result never depends on the cache `Set` error. -/
theorem c1_cache_aside_read {V : Type} (v w : V) (oe : Option String)
    (e : String) (repoRes : Except RepoErr V) (se se' : Option String) :
    getTaskHandler (some v, none) repoRes se = ⟨HStatus.ok200, some v, 0, 0⟩
    ∧ (getTaskHandler (none, oe) repoRes se).repoFetches = 1
    ∧ (getTaskHandler (some v, some e) repoRes se).repoFetches = 1
    ∧ getTaskHandler (none, oe) (Except.ok w) se =
        ⟨HStatus.ok200, some w, 1, 1⟩
    ∧ getTaskHandler (some v, some e) (Except.ok w) se =
        ⟨HStatus.ok200, some w, 1, 1⟩
    ∧ getTaskHandler (none, oe) repoRes se =
        getTaskHandler (none, oe) repoRes se'
    ∧ getTaskHandler (some v, some e) repoRes se =
        getTaskHandler (some v, some e) repoRes se' := by
  refine ⟨rfl, ?_, ?_, rfl, rfl, rfl, rfl⟩ <;>
    cases repoRes with
    | error err => cases err <;> rfl
    | ok _ => rfl

/-- **C2** counterexample. A create whose repository mutation succeeds
performs zero cache invalidations: `TaskHandler.CreateTask` never touches
the cache, refuting "for every write request (create, update, delete) ...
the coordinator performs a best-effort invalidation of the affected cache
entry". -/
theorem c2_counterexample :
    createTaskHandler none = ⟨HStatus.created201, 1, 0⟩
    ∧ (createTaskHandler none).cacheInvalidations = 0 := ⟨rfl, rfl⟩

/-- **C2** (corrected). For update and delete the repository mutation comes
first; a failed mutation is returned with zero cache invalidations, a
successful one is followed by exactly one best-effort invalidation whose
error never changes the result.  Create also mutates first and returns its
failure without touching the cache, but on success it performs no cache
invalidation either. -/
theorem c2_amended_write_path {V : Type} (v : V) (e : String)
    (ue : Option String) (i i' : Option String) (delErr : Option RepoErr) :
    createTaskHandler (some e) = ⟨HStatus.serverError500, 1, 0⟩
    ∧ createTaskHandler none = ⟨HStatus.created201, 1, 0⟩
    ∧ (createTaskHandler none).cacheInvalidations = 0
    ∧ updateTaskHandler (Except.ok v) (some e) i =
        ⟨HStatus.serverError500, 1, 0⟩
    ∧ updateTaskHandler (Except.ok v) none i = ⟨HStatus.ok200, 1, 1⟩
    ∧ updateTaskHandler (Except.ok v) ue i =
        updateTaskHandler (Except.ok v) ue i'
    ∧ deleteTaskHandler (some RepoErr.recordNotFound) i =
        ⟨HStatus.notFound404, 1, 0⟩
    ∧ deleteTaskHandler (some RepoErr.internalErr) i =
        ⟨HStatus.serverError500, 1, 0⟩
    ∧ deleteTaskHandler none i = ⟨HStatus.noContent204, 1, 1⟩
    ∧ deleteTaskHandler delErr i = deleteTaskHandler delErr i' := by
  refine ⟨rfl, rfl, rfl, rfl, rfl, ?_, rfl, rfl, rfl, rfl⟩
  cases ue <;> rfl

/- ### CachedTaskHandler.GetTasks (internal/handlers/task_cached.go) -/

/-- Body of the list response (`TaskListResponse`). -/
structure ListResponse where
  tasks : List Task
  total : Nat
  page : Nat
  limit : Nat
  hasNext : Bool
  hasPrevious : Bool
deriving Repr, DecidableEq

/-- Observable result of a list request. -/
structure ListOutcome where
  status : HStatus
  response : Option ListResponse
  repoFetches : Nat
  cacheSets : Nat
deriving Repr, DecidableEq

/-- `if page < 1 { page = 1 }`. -/
def clampPage (p : Nat) : Nat := if p < 1 then 1 else p

/-- `if limit < 1 || limit > 100 { limit = 10 }`. -/
def clampLimit (l : Nat) : Nat := if l < 1 ∨ l > 100 then 10 else l

/-- The WHERE clauses of `Database.GetAll` (database.go:44-65): a status or
assignee filter is applied only when the parameter is non-empty. -/
def matchesFilter (status assignee : String) (t : Task) : Bool :=
  (status == "" || t.status == status) && (assignee == "" || t.assignee == assignee)

/-- `Database.GetAll` (database.go:44-65): the filtered count as total and
the offset/limit page of the filtered rows. -/
def repoGetAll (db : List Task) (page limit : Nat) (status assignee : String) :
    List Task × Nat :=
  let filtered := db.filter (matchesFilter status assignee)
  ((filtered.drop ((page - 1) * limit)).take limit, filtered.length)

/-- `filterTasksByStatus`. -/
def filterTasksByStatus (ts : List Task) (s : String) : List Task :=
  ts.filter fun t => t.status == s

/-- `filterTasksByAssignee`. -/
def filterTasksByAssignee (ts : List Task) (a : String) : List Task :=
  ts.filter fun t => t.assignee == a

/-- `CachedTaskHandler.GetTasks` (task_cached.go:29-126) as a function of the
list-cache result — `h.cache.GetTasks()` returning an error, a nil slice
(miss), or the cached tasks — the repository contents, and the raw query
parameters.  On a cache error the handler answers 500 "Cache error" without
consulting the repository.  On a miss it fetches the filtered page and
total from the repository, caches the tasks best-effort and computes
`HasNext` from the repository total.  On a hit it filters and paginates the
cached slice manually but sets `Total` and `HasNext` from the length of the
whole cached slice. -/
def cachedGetTasks (cacheRes : Except String (Option (List Task)))
    (db : List Task) (pageIn limitIn : Nat) (status assignee : String) :
    ListOutcome :=
  match cacheRes with
  | Except.error _ => ⟨HStatus.serverError500, none, 0, 0⟩
  | Except.ok none =>
      let page := clampPage pageIn
      let limit := clampLimit limitIn
      let fetched := repoGetAll db page limit status assignee
      ⟨HStatus.ok200,
        some ⟨fetched.1, fetched.2, page, limit,
          decide (page * limit < fetched.2), decide (1 < page)⟩, 1, 1⟩
  | Except.ok (some tasks) =>
      let f1 := if status ≠ "" then filterTasksByStatus tasks status else tasks
      let f2 := if assignee ≠ "" then filterTasksByAssignee f1 assignee else f1
      let page := clampPage pageIn
      let limit := clampLimit limitIn
      let start := (page - 1) * limit
      let pageTasks :=
        if f2.length ≤ start then ([] : List Task)
        else (f2.drop start).take limit
      ⟨HStatus.ok200,
        some ⟨pageTasks, tasks.length, page, limit,
          decide (page * limit < tasks.length), decide (1 < page)⟩, 0, 0⟩

/-- A sample pending task. -/
def taskPending : Task := ⟨"1", "a", "", "pending", "bob"⟩

/-- A sample completed task. -/
def taskCompleted : Task := ⟨"2", "b", "", "completed", "bob"⟩

/-- **C3** counterexample. A cache `Get` error on the list read path of
`CachedTaskHandler.GetTasks` is NOT treated like a miss: with a non-empty
repository available, the handler answers 500 with no repository fetch
instead of serving the request from the repository. -/
theorem c3_counterexample :
    cachedGetTasks (Except.error "cache down") [taskPending] 1 10 "" "" =
      ⟨HStatus.serverError500, none, 0, 0⟩ := rfl

/-- **C3** (corrected). On the single-entity path of `TaskHandler.GetTask` a
cache `Get` error is treated exactly like a miss — the handler falls
through to the repository and serves the request from it — but on the list
path of `CachedTaskHandler.GetTasks` a cache error fails the request with
500 "Cache error" and zero repository fetches. -/
theorem c3_amended_cache_error {V : Type} (v : V) (e ce : String)
    (repoRes : Except RepoErr V) (se : Option String) (db : List Task)
    (pageIn limitIn : Nat) (status assignee : String) :
    getTaskHandler (none, some e) repoRes se =
        getTaskHandler (V := V) (none, none) repoRes se
    ∧ getTaskHandler (some v, some e) repoRes se =
        getTaskHandler (V := V) (none, none) repoRes se
    ∧ (getTaskHandler (none, some e) repoRes se).repoFetches = 1
    ∧ cachedGetTasks (Except.error ce) db pageIn limitIn status assignee =
        ⟨HStatus.serverError500, none, 0, 0⟩ := by
  refine ⟨rfl, rfl, ?_, rfl⟩
  cases repoRes with
  | error err => cases err <;> rfl
  | ok _ => rfl

/-- **C10** (confirmed). When `CachedTaskHandler.GetTasks` serves a filtered
request from a populated list cache, `Total` is the count of ALL cached
tasks and `HasNext` is computed from that same count, whereas on the
cache-miss path `Total` is the repository's filtered count; consequently a
concrete state exists — repository `[pending, completed]`, list cache
holding those same two tasks, query `status=pending` — where the cached
path reports total 2 and the miss path total 1 for the same query. -/
theorem c10_cached_total_unfiltered (tasks db : List Task)
    (pageIn limitIn : Nat) (status assignee : String) :
    ((cachedGetTasks (Except.ok (some tasks)) db pageIn limitIn status
        assignee).response.map ListResponse.total) = some tasks.length
    ∧ ((cachedGetTasks (Except.ok (some tasks)) db pageIn limitIn status
        assignee).response.map ListResponse.hasNext) =
        some (decide (clampPage pageIn * clampLimit limitIn < tasks.length))
    ∧ ((cachedGetTasks (Except.ok none) db pageIn limitIn status
        assignee).response.map ListResponse.total) =
        some (db.filter (matchesFilter status assignee)).length
    ∧ ((cachedGetTasks (Except.ok (some [taskPending, taskCompleted]))
        [taskPending, taskCompleted] 1 10 "pending" "").response.map
        ListResponse.total) = some 2
    ∧ ((cachedGetTasks (Except.ok none) [taskPending, taskCompleted])
        1 10 "pending" "").response.map ListResponse.total = some 1 := by
  refine ⟨rfl, rfl, rfl, ?_, ?_⟩ <;> decide

end GraphCache
